import Mathlib

/-!
Verification of the jpod_nano MP3 player core against its specification.

The development shallowly embeds the two components the claims are about:

* `Playlist` (src/src/audio/playlist.hpp, playlist.cpp): track list with a
  shuffle order and a cursor, navigated by `next` / `prev` / `has_next` /
  `has_prev` / `reshuffle`.
* `Player` (src/src/audio/player.cpp, player.hpp): playback state machine with
  an elapsed-time accumulator, volume control, relative seek and a background
  streaming loop.

C++ `int` / `off_t` arithmetic is modelled on `Int` (no overflow occurs at the
magnitudes involved); C++ integer division truncates toward zero and is
modelled by `Int.tdiv`.  `float` volume values are modelled on `ℚ`: the only
operations performed on them are comparison, clamping and addition, and the
claims under study are order-theoretic, not rounding-sensitive.
Wall-clock time (`std::chrono::steady_clock`) is modelled as an integer number
of milliseconds; monotonicity of the clock is part of the reachability
relation.
-/

namespace JpodNano

/-! ## Playlist (src/src/audio/playlist.hpp + playlist.cpp)

`songs_` is the lexicographically sorted list of MP3 paths, `shuffle_order_`
a list of indices into `songs_`, and `index_` the cursor into
`shuffle_order_`. -/

structure Playlist where
  songs : List String
  shuffle_order : List Nat
  index : Nat
  deriving DecidableEq, Repr

/-- Model of `Playlist::current`: `songs_.at(shuffle_order_[index_])`.  Out-of-range
access (which would throw / be UB in C++) is given the default `""`; all
theorems are stated on in-range states. -/
def Playlist.current (pl : Playlist) : String :=
  pl.songs.getD (pl.shuffle_order.getD pl.index 0) ""

/-- Model of `Playlist::next`: `index_ = (index_ + 1) % songs_.size()`. -/
def Playlist.next (pl : Playlist) : Playlist :=
  { pl with index := (pl.index + 1) % pl.songs.length }

/-- Model of `Playlist::prev`: `if (index_ == 0) index_ = songs_.size();
 index_ = (index_ - 1) % songs_.size()`. -/
def Playlist.prev (pl : Playlist) : Playlist :=
  let j := if pl.index = 0 then pl.songs.length else pl.index
  { pl with index := (j - 1) % pl.songs.length }

/-- Model of `Playlist::has_next`: `index_ + 1 < songs_.size()`. -/
def Playlist.has_next (pl : Playlist) : Bool :=
  pl.index + 1 < pl.songs.length

/-- Model of `Playlist::has_prev`: `index_ > 0`. -/
def Playlist.has_prev (pl : Playlist) : Bool :=
  pl.index > 0

/-- One `std::swap(first[i], first[j])` on the shuffle order. -/
def swapL (l : List Nat) (i j : Nat) : List Nat :=
  (l.set i (l.getD j 0)).set j (l.getD i 0)

/-- The loop of `std::shuffle`: for `i = n-1 .. 1`, swap position `i` with a
uniformly drawn position `j ∈ [0, i]`.  The random draws of `std::mt19937`
are abstracted as a function `d`; reducing the draw modulo `i + 1` captures
exactly the range `uniform_int_distribution(0, i)` can produce. -/
def fyAux : Nat → List Nat → (Nat → Nat) → List Nat
  | 0, l, _ => l
  | Nat.succ n, l, d => fyAux n (swapL l (n + 1) (d (n + 1) % (n + 2))) d

/-- Model of `std::shuffle(shuffle_order_.begin(), shuffle_order_.end(), mt19937{...})`. -/
def shuffleList (l : List Nat) (d : Nat → Nat) : List Nat :=
  fyAux (l.length - 1) l d

/-- Model of `Playlist::reshuffle`: resize the order to `songs_.size()`, refill it with
`iota` (so the pre-state order is irrelevant), shuffle it, and reset the
cursor to 0. -/
def Playlist.reshuffle (pl : Playlist) (d : Nat → Nat) : Playlist :=
  { pl with
    shuffle_order := shuffleList (List.range pl.songs.length) d,
    index := 0 }

theorem swapL_length (l : List Nat) (i j : Nat) :
    (swapL l i j).length = l.length := by
  simp [swapL]

theorem getD_eq_of_lt {A : Type} (l : List A) (i : Nat) (d : A)
    (h : i < l.length) : l.getD i d = l[i] := by
  simp [List.getD_eq_getElem?_getD, List.getElem?_eq_getElem h]

theorem set_getD_self (l : List Nat) (i : Nat) (h : i < l.length) :
    l.set i (l.getD i 0) = l := by
  induction l generalizing i with
  | nil => simp at h
  | cons x xs ih =>
    cases i with
    | zero => simp
    | succ n =>
      simp only [List.set_cons_succ, List.getD_cons_succ]
      rw [ih n (by simpa using h)]

theorem cons_set_perm (x : Nat) (xs : List Nat) (k : Nat) (h : k < xs.length) :
    (xs.getD k 0 :: xs.set k x).Perm (x :: xs) := by
  induction xs generalizing k with
  | nil => simp at h
  | cons y ys ih =>
    cases k with
    | zero => simpa using List.Perm.swap x y ys
    | succ n =>
      simp only [List.getD_cons_succ, List.set_cons_succ]
      exact (List.Perm.swap y (ys.getD n 0) (ys.set n x)).trans
        (((ih n (by simpa using h)).cons y).trans (List.Perm.swap x y ys))

theorem swapL_perm (l : List Nat) (i j : Nat) (hi : i < l.length)
    (hj : j < l.length) : (swapL l i j).Perm l := by
  induction l generalizing i j with
  | nil => simp at hi
  | cons x xs ih =>
    by_cases hij : i = j
    · subst hij
      rw [swapL, List.set_set, set_getD_self _ _ hi]
    · cases i with
      | zero =>
        cases j with
        | zero => exact absurd rfl hij
        | succ m =>
          simp only [swapL, List.getD_cons_succ, List.getD_cons_zero,
            List.set_cons_zero, List.set_cons_succ]
          exact cons_set_perm x xs m (by simpa using hj)
      | succ n =>
        cases j with
        | zero =>
          have hcomm : swapL (x :: xs) (n + 1) 0 = swapL (x :: xs) 0 (n + 1) := by
            simp only [swapL]
            exact List.set_comm _ _ _ (by omega)
          rw [hcomm]
          simp only [swapL, List.getD_cons_succ, List.getD_cons_zero,
            List.set_cons_zero, List.set_cons_succ]
          exact cons_set_perm x xs n (by simpa using hi)
        | succ m =>
          simp only [swapL, List.getD_cons_succ, List.set_cons_succ]
          exact (ih n m (by simpa using hi) (by simpa using hj)).cons x

theorem fyAux_perm (d : Nat → Nat) :
    ∀ (n : Nat) (l : List Nat), n < l.length → (fyAux n l d).Perm l := by
  intro n
  induction n with
  | zero => intro l _; exact List.Perm.refl l
  | succ n ih =>
    intro l h
    have hj : d (n + 1) % (n + 2) < l.length :=
      lt_of_le_of_lt (Nat.le_of_lt_succ (Nat.mod_lt _ (by omega))) h
    have hswap : (swapL l (n + 1) (d (n + 1) % (n + 2))).Perm l :=
      swapL_perm l _ _ h hj
    have hlen : n < (swapL l (n + 1) (d (n + 1) % (n + 2))).length := by
      rw [swapL_length]; omega
    exact (ih _ hlen).trans hswap

theorem shuffleList_perm (l : List Nat) (d : Nat → Nat) :
    (shuffleList l d).Perm l := by
  cases l with
  | nil => exact List.Perm.refl _
  | cons x xs =>
    exact fyAux_perm d _ _ (by simp)

/-! ## Player (src/src/audio/player.hpp + player.cpp)

The decoder (`mpg123`) and the output device (`SDL`) are external
collaborators; the model keeps exactly the observable quantities the player
manipulates through them: decoder open/position/length, device
open/paused/queued-audio amount. -/

/-- The enum `State` from player.hpp. -/
inductive PState where
  | stopped
  | pauseSt
  | play
  | switchOff
  deriving DecidableEq, Repr

/-- What `mpg123_open` + `mpg123_getformat` + `mpg123_length` report for a
file that opens successfully.  `reportedSamples = none` models
`mpg123_length` returning `MPG123_ERR` (unknown duration) while the stream
may still hold `actualSamples` decodable samples. -/
structure TrackInfo where
  reportedSamples : Option Int
  actualSamples : Int
  rate : Int
  deriving DecidableEq, Repr

/-- A file system snapshot: which paths open successfully and what the
decoder reports for them. -/
def SongSource : Type := String → Option TrackInfo

/-- The Player's fields (player.hpp).  `volume_` and `last_volume_` are the
atomic floats; `elapsed_seconds_` the atomic int; `elapsed_duration_` is in
milliseconds; `start_time_` is a steady-clock timestamp in milliseconds.
`queuedAudio` abstracts `SDL_GetQueuedAudioSize` (the amount of PCM queued
and not yet played); `warnCount` counts `[WARN]` lines printed to stderr. -/
structure PlayerState where
  pstate : PState
  volume : ℚ
  lastVolume : ℚ
  elapsedSeconds : Int
  totalSeconds : Int
  elapsedDurationMs : Int
  startTime : Int
  deviceOpen : Bool
  devicePaused : Bool
  queuedAudio : Int
  decoderOpen : Bool
  decodePosSamples : Int
  trackSamples : Int
  sampleRate : Int
  playlist : Option Playlist
  warnCount : Nat
  deriving DecidableEq, Repr

/-- The freshly constructed Player: `state_{STOPPED}`, `volume_{1}`,
`last_volume_{1}`, `elapsed_seconds_{0}`, `total_seconds_{0}`,
`elapsed_duration_{0}`, default-constructed `start_time_` (the clock epoch),
and - note - `audio_device_{0}`: the `std::optional` is initialised
*holding* the (invalid) device id 0, so `has_value()` is true from the
start. -/
def initState : PlayerState :=
  { pstate := .stopped
    volume := 1
    lastVolume := 1
    elapsedSeconds := 0
    totalSeconds := 0
    elapsedDurationMs := 0
    startTime := 0
    deviceOpen := true
    devicePaused := false
    queuedAudio := 0
    decoderOpen := false
    decodePosSamples := 0
    trackSamples := 0
    sampleRate := 0
    playlist := none
    warnCount := 0 }

/-- Model of `std::clamp` on floats (used with lo = 0, hi = 1). -/
def clampQ (v lo hi : ℚ) : ℚ :=
  if v < lo then lo else if hi < v then hi else v

/-- Model of `std::clamp` on ints (used in `seek_relative`). -/
def clampInt (v lo hi : Int) : Int :=
  if v < lo then lo else if hi < v then hi else v

/-- Model of `Player::get_volume`. -/
def get_volume (s : PlayerState) : ℚ := s.volume

/-- Model of `Player::set_volume`: `volume_.store(std::clamp(vol, VOLUME_MUTE, VOLUME_FULL))`. -/
def set_volume (s : PlayerState) (v : ℚ) : PlayerState :=
  { s with volume := clampQ v 0 1 }

/-- Model of `Player::adjust_volume`: `set_volume(get_volume() + delta)`. -/
def adjust_volume (s : PlayerState) (delta : ℚ) : PlayerState :=
  set_volume s (get_volume s + delta)

/-- The state of the player once a `fade_to(target)` future has completed:
the last store of the fade task is `set_volume(target)`. -/
def fade_done (s : PlayerState) (target : ℚ) : PlayerState :=
  set_volume s target

/-- Model of `Player::pause_audio_device()`: `SDL_PauseAudioDevice(dev, 1)` if the
optional holds a device. -/
def pause_audio_device (s : PlayerState) : PlayerState :=
  if s.deviceOpen then { s with devicePaused := true } else s

/-- Model of `Player::resume_audio_device()`. -/
def resume_audio_device (s : PlayerState) : PlayerState :=
  if s.deviceOpen then { s with devicePaused := false } else s

/-- Model of `Player::pause` at wall-clock time `now` (ms).  Note that the
accumulation `elapsed_duration_ += now - start_time_` happens whatever the
current state is (the only early return is `SWITCH_OFF`), and that
`last_volume_` is snapshotted only when not already paused.  The awaited
`fade_to(VOLUME_MUTE)` ends in `set_volume(VOLUME_MUTE)`. -/
def pause (s : PlayerState) (now : Int) : PlayerState :=
  if s.pstate = .switchOff then s
  else
    let s1 := { s with
      elapsedDurationMs := s.elapsedDurationMs + (now - s.startTime),
      lastVolume := if s.pstate ≠ .pauseSt then s.volume else s.lastVolume }
    let s2 := fade_done s1 0
    let s3 := pause_audio_device s2
    { s3 with pstate := .pauseSt }

/-- Model of `Player::resume` at time `now`: restart `start_time_`, resume the device,
await `fade_to(last_volume_)` (which ends in `set_volume(last_volume_)`), and
flip the state to `PLAY`. -/
def resume (s : PlayerState) (now : Int) : PlayerState :=
  if s.pstate = .switchOff then s
  else
    let s1 := { s with startTime := now }
    let s2 := resume_audio_device s1
    let s3 := fade_done s2 s.lastVolume
    { s3 with pstate := .play }

/-- Assignment `playlist_ = std::move(playlist)` - replacing the playlist member. -/
def with_playlist (s : PlayerState) (p : Option Playlist) : PlayerState :=
  { s with playlist := p }

/-- The call `mpg123_close(mpg_handler_)`. -/
def close_decoder (s : PlayerState) : PlayerState :=
  { s with decoderOpen := false }

/-- The store `state_.store(q)`. -/
def set_pstate (s : PlayerState) (q : PState) : PlayerState :=
  { s with pstate := q }

/-- Model of `Player::load_song`.  Stops playback, pauses the device, opens the
decoder (`mpg123_open` failure throws `"Failed to open " + path`), reads the
format and length (`total_seconds_ = total_samples / rate`, 0 when
`mpg123_length` errs), zeroes the elapsed accumulator, and opens a fresh -
paused - audio device.  Tag extraction does not affect any modelled field. -/
def load_song (src : SongSource) (s : PlayerState) (path : String) :
    Except String PlayerState :=
  match src path with
  | none => .error ("Failed to open " ++ path)
  | some info =>
    let s1 := pause_audio_device { s with pstate := .stopped }
    let total : Int :=
      match info.reportedSamples with
      | some n => n.tdiv info.rate
      | none => 0
    .ok { s1 with
      sampleRate := info.rate,
      totalSeconds := total,
      elapsedSeconds := 0,
      elapsedDurationMs := 0,
      decoderOpen := true,
      decodePosSamples := 0,
      trackSamples := info.actualSamples,
      deviceOpen := true,
      queuedAudio := 0,
      devicePaused := true }

/-- Model of `Player::next_song`: no-op without a playlist, otherwise
`pause(); load_song(playlist_->next()); resume()`.  The exception from
`load_song` propagates (there is no try/catch). -/
def next_song (src : SongSource) (s : PlayerState) (now : Int) :
    Except String PlayerState :=
  match s.playlist with
  | none => .ok s
  | some pl =>
    match load_song src (with_playlist (pause s now) (some (Playlist.next pl)))
        (Playlist.current (Playlist.next pl)) with
    | .error e => .error e
    | .ok s2 => .ok (resume s2 now)

/-- Model of `Player::prev_song`, symmetric to `next_song`. -/
def prev_song (src : SongSource) (s : PlayerState) (now : Int) :
    Except String PlayerState :=
  match s.playlist with
  | none => .ok s
  | some pl =>
    match load_song src (with_playlist (pause s now) (some (Playlist.prev pl)))
        (Playlist.current (Playlist.prev pl)) with
    | .error e => .error e
    | .ok s2 => .ok (resume s2 now)

/-- Model of `Player::set_playlist` followed by `load_current()`. -/
def set_playlist (src : SongSource) (s : PlayerState) (p : Option Playlist) :
    Except String PlayerState :=
  match p with
  | none => .ok (with_playlist s p)
  | some pl => load_song src (with_playlist s p) (Playlist.current pl)

/-- Model of `Player::update_elapsed_time`:
`elapsed_seconds_ = duration_cast<seconds>(elapsed_duration_ + (now - start_time_))`.
`duration_cast` truncates toward zero, hence `Int.tdiv`. -/
def update_elapsed_time (s : PlayerState) (now : Int) : PlayerState :=
  { s with elapsedSeconds := (s.elapsedDurationMs + (now - s.startTime)).tdiv 1000 }

/-- Model of `Player::get_progress`: `{elapsed_seconds_.load(), total_seconds_}`. -/
def get_progress (s : PlayerState) : Int × Int :=
  (s.elapsedSeconds, s.totalSeconds)

/-- Model of `Player::is_playing`. -/
def is_playing (s : PlayerState) : Bool :=
  s.pstate = .play

/-- Whether `mpg123_read` yields a frame: the decoder is open and has data
left.  Any non-`MPG123_OK` outcome (genuine end of stream, a decode error, a
closed handle) makes this false - the streaming loop does not distinguish
them. -/
def readOk (s : PlayerState) : Bool :=
  s.decoderOpen && s.decodePosSamples < s.trackSamples

/-- The body of one successful `stream_audio` iteration at time `now`,
decoding `frame` samples: update the elapsed time, (wait for buffer space -
no state change), apply the gain, and queue the frame. -/
def stream_step (s : PlayerState) (now frame : Int) : PlayerState :=
  let s1 := update_elapsed_time s now
  { s1 with
    decodePosSamples := s1.decodePosSamples + frame,
    queuedAudio := s1.queuedAudio + frame }

/-- Model of `Player::stream_audio`: `while (state_ == PLAY && mpg123_read(...) == OK)`.
The schedule `sched` lists, for each potential iteration, the wall-clock time
of the iteration and the number of samples the read returns; the loop stops
as soon as the state leaves `PLAY` or the read fails, and the function is
total regardless of decode errors. -/
def stream_audio (s : PlayerState) : List (Int × Int) → PlayerState
  | [] => s
  | (now, frame) :: rest =>
    if s.pstate = .play ∧ readOk s then
      stream_audio (stream_step s now frame) rest
    else s

/-- Model of `Player::wait_for_buffer_to_drain`: polls while `PLAY` until the device
queue is empty (the device, running, consumes it) or the device is gone. -/
def drain_buffer (s : PlayerState) : PlayerState :=
  if s.pstate = .play ∧ s.deviceOpen then { s with queuedAudio := 0 } else s

/-- Lines 184-191 of player.cpp: after the streaming phase, if the state is
still `PLAY` the read must have failed (end of track or decode error), so
close the decoder (`mpg123_close`) and advance to the next playlist track,
or - with no playlist - transition to `Stopped`.  The value is an `Except`
because `next_song` can throw: nothing in `player_thread` catches it. -/
def end_of_track (src : SongSource) (s3 : PlayerState) (now : Int) :
    Except String PlayerState :=
  if s3.pstate = .play then
    match s3.playlist with
    | some _ => next_song src (close_decoder s3) now
    | none => .ok (set_pstate (close_decoder s3) .stopped)
  else .ok s3

/-- One pass of the body of `Player::player_thread` (after the 5 ms sleep):
if `PLAY`, resume the device, stream until the read fails or the state
changes, drain, and perform end-of-track handling. -/
def player_iteration (src : SongSource) (s : PlayerState)
    (sched : List (Int × Int)) (now : Int) : Except String PlayerState :=
  if s.pstate ≠ .play then .ok s
  else
    end_of_track src (drain_buffer (stream_audio (resume_audio_device s) sched)) now

/-- Model of `Player::seek_relative(delta_seconds)` at time `now`;
`accept` records whether `mpg123_seek` succeeds.  Under the device mutex:
return early when shutting down or no device; clamp
`target = clamp(elapsed_seconds_ + delta, 0, total_seconds_)`; seek the
decoder to `target * rate` samples; on failure print a warning and return;
on success clear the device queue, set `elapsed_duration_ = seconds(target)`,
restart `start_time_`, and `resume()`. -/
def seek_relative (s : PlayerState) (delta now : Int) (accept : Bool) :
    PlayerState :=
  if s.pstate = .switchOff ∨ s.deviceOpen = false then s
  else
    let current := s.elapsedSeconds
    let target := clampInt (current + delta) 0 s.totalSeconds
    if accept = false then { s with warnCount := s.warnCount + 1 }
    else
      let s1 := { s with
        decodePosSamples := target * s.sampleRate,
        queuedAudio := 0,
        elapsedDurationMs := target * 1000,
        startTime := now }
      resume s1 now

/-- The destructor: `state_.store(SWITCH_OFF)` then release the device and
the decoder. -/
def shutdown (s : PlayerState) : PlayerState :=
  { s with pstate := .switchOff, deviceOpen := false, decoderOpen := false }

/-- Sanity conditions every real `SongSource` satisfies: `mpg123` sample
rates are positive and sample counts non-negative. -/
def WfSource (src : SongSource) : Prop :=
  ∀ p info, src p = some info →
    0 < info.rate ∧ 0 ≤ info.actualSamples ∧
    ∀ n, info.reportedSamples = some n → 0 ≤ n

/-! ## Reachability

`Reachable t s` holds when the player can be in state `s` at wall-clock time
`t` (ms) after some interleaving of command-surface calls (issued by the
controller thread), streaming-loop activity, and track loads.  The clock is
monotone; each constructor applies one of the source operations at the
current time.  Failing `load` calls throw and therefore do not produce a
player state; only `.ok` outcomes extend the relation. -/

inductive Reachable : Int → PlayerState → Prop where
  | init : Reachable 0 initState
  | elapse {t s} (u : Int) : Reachable t s → t ≤ u → Reachable u s
  | doPause {t s} : Reachable t s → Reachable t (pause s t)
  | doResume {t s} : Reachable t s → Reachable t (resume s t)
  | doSeek {t s} (delta : Int) (accept : Bool) :
      Reachable t s → Reachable t (seek_relative s delta t accept)
  | doSetVolume {t s} (v : ℚ) : Reachable t s → Reachable t (set_volume s v)
  | doAdjustVolume {t s} (d : ℚ) :
      Reachable t s → Reachable t (adjust_volume s d)
  | doFade {t s} (v : ℚ) : Reachable t s → Reachable t (fade_done s v)
  | doLoad {t s s2} (src : SongSource) (p : String) :
      WfSource src → Reachable t s → load_song src s p = .ok s2 →
      Reachable t s2
  | doSetPlaylist {t s s2} (src : SongSource) (p : Option Playlist) :
      WfSource src → Reachable t s → set_playlist src s p = .ok s2 →
      Reachable t s2
  | doNextSong {t s s2} (src : SongSource) :
      WfSource src → Reachable t s → next_song src s t = .ok s2 →
      Reachable t s2
  | doPrevSong {t s s2} (src : SongSource) :
      WfSource src → Reachable t s → prev_song src s t = .ok s2 →
      Reachable t s2
  | doStreamRead {t s} (frame : Int) :
      Reachable t s → s.pstate = .play → readOk s = true → 0 ≤ frame →
      Reachable t (stream_step s t frame)
  | doIteration {t s s2} (src : SongSource) (sched : List (Int × Int)) :
      WfSource src → Reachable t s → (∀ x ∈ sched, t ≤ x.1) →
      player_iteration src s sched t = .ok s2 → Reachable t s2
  | doShutdown {t s} : Reachable t s → Reachable t (shutdown s)

/-- The timing invariant the elapsed-time machinery maintains: the displayed
elapsed seconds and the total are non-negative, the carried-over duration is
non-negative, and `start_time_` never lies in the future. -/
def Inv (t : Int) (s : PlayerState) : Prop :=
  0 ≤ s.elapsedSeconds ∧ 0 ≤ s.totalSeconds ∧ 0 ≤ s.elapsedDurationMs ∧
    s.startTime ≤ t


theorem inv_pause {t s} (h : Inv t s) : Inv t (pause s t) := by
  obtain ⟨h1, h2, h3, h4⟩ := h
  unfold pause fade_done set_volume pause_audio_device
  split
  · exact ⟨h1, h2, h3, h4⟩
  · by_cases hd : s.deviceOpen = true
    · refine ⟨?_, ?_, ?_, ?_⟩ <;> simp [hd] <;> omega
    · refine ⟨?_, ?_, ?_, ?_⟩ <;> simp [hd] <;> omega

theorem inv_resume {t s} (h : Inv t s) : Inv t (resume s t) := by
  obtain ⟨h1, h2, h3, h4⟩ := h
  unfold resume fade_done set_volume resume_audio_device
  split
  · exact ⟨h1, h2, h3, h4⟩
  · by_cases hd : s.deviceOpen = true
    · refine ⟨?_, ?_, ?_, ?_⟩ <;> simp [hd] <;> omega
    · refine ⟨?_, ?_, ?_, ?_⟩ <;> simp [hd] <;> omega

theorem inv_load {t s s2} {src : SongSource} {p : String}
    (hw : WfSource src) (h : Inv t s) (hl : load_song src s p = .ok s2) :
    Inv t s2 := by
  obtain ⟨h1, h2, h3, h4⟩ := h
  unfold load_song pause_audio_device at hl
  cases hsrc : src p with
  | none => rw [hsrc] at hl; exact absurd hl (by simp)
  | some info =>
    rw [hsrc] at hl
    obtain ⟨hr, ha, hrep⟩ := hw p info hsrc
    simp only [Except.ok.injEq] at hl
    subst hl
    have htot : (0:Int) ≤ match info.reportedSamples with
        | some n => n.tdiv info.rate
        | none => 0 := by
      cases hrs : info.reportedSamples with
      | none => simp
      | some n => simpa using Int.tdiv_nonneg (hrep n hrs) (le_of_lt hr)
    by_cases hd : s.deviceOpen = true
    · refine ⟨?_, ?_, ?_, ?_⟩ <;> simp [hd] <;> omega
    · refine ⟨?_, ?_, ?_, ?_⟩ <;> simp [hd] <;> omega

theorem inv_update {t s} (now : Int) (h : Inv t s) (hn : s.startTime ≤ now) :
    Inv t (update_elapsed_time s now) := by
  obtain ⟨h1, h2, h3, h4⟩ := h
  exact ⟨Int.tdiv_nonneg (by omega) (by omega), h2, h3, h4⟩

theorem inv_stream_step {t s} (now frame : Int) (h : Inv t s)
    (hn : s.startTime ≤ now) : Inv t (stream_step s now frame) := by
  obtain ⟨h1, h2, h3, h4⟩ := inv_update now h hn
  exact ⟨h1, h2, h3, h4⟩

theorem stream_audio_startTime (s : PlayerState) (sched : List (Int × Int)) :
    (stream_audio s sched).startTime = s.startTime := by
  induction sched generalizing s with
  | nil => rfl
  | cons x rest ih =>
    unfold stream_audio
    split
    · rw [ih]; rfl
    · rfl

theorem inv_stream {t s} (sched : List (Int × Int)) (h : Inv t s)
    (hs : ∀ x ∈ sched, t ≤ x.1) : Inv t (stream_audio s sched) := by
  induction sched generalizing s with
  | nil => exact h
  | cons x rest ih =>
    unfold stream_audio
    split
    · refine ih (inv_stream_step x.1 x.2 h ?_) (fun y hy => hs y (by simp [hy]))
      exact le_trans h.2.2.2 (hs x (by simp))
    · exact h

theorem inv_seek {t s} (delta : Int) (accept : Bool) (h : Inv t s) :
    Inv t (seek_relative s delta t accept) := by
  obtain ⟨h1, h2, h3, h4⟩ := h
  unfold seek_relative
  split
  · exact ⟨h1, h2, h3, h4⟩
  · split
    · exact ⟨h1, h2, h3, h4⟩
    · have htar : 0 ≤ clampInt (s.elapsedSeconds + delta) 0 s.totalSeconds := by
        unfold clampInt
        split
        · omega
        · split <;> omega
      apply inv_resume
      refine ⟨h1, h2, ?_, le_refl t⟩
      exact mul_nonneg htar (by norm_num)

theorem inv_load_resume {t : Int} {s2 s3 : PlayerState} {src : SongSource}
    {path : String} (hw : WfSource src) (hA : Inv t s2)
    (hn : (match load_song src s2 path with
           | .error e => Except.error e
           | .ok x => Except.ok (resume x t)) = Except.ok s3) : Inv t s3 := by
  cases hl : load_song src s2 path with
  | error e => rw [hl] at hn; exact absurd hn (by simp)
  | ok x =>
    rw [hl] at hn
    simp only [Except.ok.injEq] at hn
    subst hn
    exact inv_resume (inv_load hw hA hl)

theorem inv_next_song {t s s2} {src : SongSource} (hw : WfSource src)
    (h : Inv t s) (hn : next_song src s t = .ok s2) : Inv t s2 := by
  unfold next_song at hn
  cases hpl : s.playlist with
  | none =>
    rw [hpl] at hn
    simp only [Except.ok.injEq] at hn
    subst hn
    exact h
  | some pl =>
    rw [hpl] at hn
    refine inv_load_resume hw ?_ hn
    exact inv_pause h

theorem inv_prev_song {t s s2} {src : SongSource} (hw : WfSource src)
    (h : Inv t s) (hn : prev_song src s t = .ok s2) : Inv t s2 := by
  unfold prev_song at hn
  cases hpl : s.playlist with
  | none =>
    rw [hpl] at hn
    simp only [Except.ok.injEq] at hn
    subst hn
    exact h
  | some pl =>
    rw [hpl] at hn
    refine inv_load_resume hw ?_ hn
    exact inv_pause h

theorem inv_end_of_track {t s s2} {src : SongSource} (hw : WfSource src)
    (h : Inv t s) (he : end_of_track src s t = .ok s2) : Inv t s2 := by
  unfold end_of_track at he
  split at he
  · cases hpl : s.playlist with
    | some pl =>
      rw [hpl] at he
      refine inv_next_song hw ?_ he
      exact h
    | none =>
      rw [hpl] at he
      simp only [Except.ok.injEq] at he
      subst he
      exact h
  · simp only [Except.ok.injEq] at he
    subst he
    exact h

theorem inv_iteration {t s s2} {src : SongSource} {sched : List (Int × Int)}
    (hw : WfSource src) (h : Inv t s) (hs : ∀ x ∈ sched, t ≤ x.1)
    (hi : player_iteration src s sched t = .ok s2) : Inv t s2 := by
  unfold player_iteration at hi
  split at hi
  · simp only [Except.ok.injEq] at hi; subst hi; exact h
  · have h1 : Inv t (resume_audio_device s) := by
      obtain ⟨a, b, c, d⟩ := h
      unfold resume_audio_device
      split <;> exact ⟨a, b, c, d⟩
    have h2 : Inv t (stream_audio (resume_audio_device s) sched) :=
      inv_stream sched h1 hs
    have h3 : Inv t (drain_buffer (stream_audio (resume_audio_device s) sched)) := by
      obtain ⟨a, b, c, d⟩ := h2
      unfold drain_buffer
      split <;> exact ⟨a, b, c, d⟩
    exact inv_end_of_track hw h3 hi

/-- Every reachable state satisfies the timing invariant. -/
theorem reachable_inv {t s} (h : Reachable t s) : Inv t s := by
  induction h with
  | init => exact ⟨le_refl 0, le_refl 0, le_refl 0, le_refl 0⟩
  | elapse u _ hle ih => exact ⟨ih.1, ih.2.1, ih.2.2.1, le_trans ih.2.2.2 hle⟩
  | doPause _ ih => exact inv_pause ih
  | doResume _ ih => exact inv_resume ih
  | doSeek delta accept _ ih => exact inv_seek delta accept ih
  | doSetVolume v _ ih => exact ⟨ih.1, ih.2.1, ih.2.2.1, ih.2.2.2⟩
  | doAdjustVolume d _ ih => exact ⟨ih.1, ih.2.1, ih.2.2.1, ih.2.2.2⟩
  | doFade v _ ih => exact ⟨ih.1, ih.2.1, ih.2.2.1, ih.2.2.2⟩
  | doLoad src p hw _ hl ih => exact inv_load hw ih hl
  | doSetPlaylist src p hw _ hl ih =>
    unfold set_playlist at hl
    cases p with
    | none => simp only [Except.ok.injEq] at hl; subst hl; exact ih
    | some pl =>
      refine inv_load hw ?_ hl
      exact ih
  | doNextSong src hw _ hn ih => exact inv_next_song hw ih hn
  | doPrevSong src hw _ hn ih => exact inv_prev_song hw ih hn
  | doStreamRead frame _ hp hr hf ih =>
    exact inv_stream_step _ frame ih ih.2.2.2
  | doIteration src sched hw _ hs hi ih => exact inv_iteration hw ih hs hi
  | doShutdown _ ih => exact ⟨ih.1, ih.2.1, ih.2.2.1, ih.2.2.2⟩

/-! ## Equational forms of the transition functions -/

theorem pause_audio_device_eq (s : PlayerState) :
    pause_audio_device s =
      { s with devicePaused := if s.deviceOpen then true else s.devicePaused } := by
  unfold pause_audio_device
  by_cases hd : s.deviceOpen = true
  · rw [if_pos hd, if_pos hd]
  · rw [if_neg hd, if_neg hd]

theorem resume_audio_device_eq (s : PlayerState) :
    resume_audio_device s =
      { s with devicePaused := if s.deviceOpen then false else s.devicePaused } := by
  unfold resume_audio_device
  by_cases hd : s.deviceOpen = true
  · rw [if_pos hd, if_pos hd]
  · rw [if_neg hd, if_neg hd]

theorem drain_buffer_eq (s : PlayerState) :
    drain_buffer s =
      { s with queuedAudio :=
          if s.pstate = .play ∧ s.deviceOpen then 0 else s.queuedAudio } := by
  unfold drain_buffer
  by_cases hd : s.pstate = .play ∧ s.deviceOpen = true <;> simp [hd]

theorem pause_eq (s : PlayerState) (now : Int) (h : s.pstate ≠ .switchOff) :
    pause s now =
      { s with
        elapsedDurationMs := s.elapsedDurationMs + (now - s.startTime),
        lastVolume := if s.pstate ≠ .pauseSt then s.volume else s.lastVolume,
        volume := 0,
        devicePaused := if s.deviceOpen then true else s.devicePaused,
        pstate := .pauseSt } := by
  unfold pause fade_done set_volume pause_audio_device clampQ
  rw [if_neg h]
  by_cases hd : s.deviceOpen = true <;> simp [hd]

theorem resume_eq (s : PlayerState) (now : Int) (h : s.pstate ≠ .switchOff) :
    resume s now =
      { s with
        startTime := now,
        devicePaused := if s.deviceOpen then false else s.devicePaused,
        volume := clampQ s.lastVolume 0 1,
        pstate := .play } := by
  unfold resume fade_done set_volume resume_audio_device
  rw [if_neg h]
  by_cases hd : s.deviceOpen = true <;> simp [hd]

theorem readOk_resume_audio_device (s : PlayerState) :
    readOk (resume_audio_device s) = readOk s := by
  rw [resume_audio_device_eq]
  rfl

theorem stream_audio_no_read (s : PlayerState) (sched : List (Int × Int))
    (h : readOk s = false) : stream_audio s sched = s := by
  cases sched with
  | nil => rfl
  | cons x rest =>
    unfold stream_audio
    rw [if_neg]
    simp [h]

theorem seek_relative_accept_eq (s : PlayerState) (delta now : Int)
    (hoff : s.pstate ≠ .switchOff) (hdev : s.deviceOpen = true) :
    seek_relative s delta now true =
      resume { s with
        decodePosSamples :=
          clampInt (s.elapsedSeconds + delta) 0 s.totalSeconds * s.sampleRate,
        queuedAudio := 0,
        elapsedDurationMs :=
          clampInt (s.elapsedSeconds + delta) 0 s.totalSeconds * 1000,
        startTime := now } now := by
  unfold seek_relative
  simp [hoff, hdev]

theorem seek_relative_reject_eq (s : PlayerState) (delta now : Int)
    (hoff : s.pstate ≠ .switchOff) (hdev : s.deviceOpen = true) :
    seek_relative s delta now false =
      { s with warnCount := s.warnCount + 1 } := by
  unfold seek_relative
  simp [hoff, hdev]

theorem clampInt_bounds (v hi : Int) (h : 0 ≤ hi) :
    0 ≤ clampInt v 0 hi ∧ clampInt v 0 hi ≤ hi := by
  unfold clampInt
  split
  · omega
  · split <;> omega

theorem clampQ_max_min (v : ℚ) :
    clampQ v 0 1 = max 0 (min v 1) ∧ 0 ≤ clampQ v 0 1 ∧ clampQ v 0 1 ≤ 1 := by
  unfold clampQ
  split_ifs with h1 h2
  · refine ⟨?_, le_refl 0, by norm_num⟩
    rw [min_eq_left (by linarith), max_eq_left (by linarith)]
  · refine ⟨?_, by norm_num, le_refl 1⟩
    rw [min_eq_right (by linarith), max_eq_right (by norm_num)]
  · refine ⟨?_, by linarith, by linarith⟩
    rw [min_eq_left (by linarith), max_eq_right (by linarith)]

/-! ## Navigation lemmas for the playlist -/

theorem next_iterate (pl : Playlist) (hi : pl.index < pl.songs.length) :
    ∀ k : Nat, Playlist.next^[k] pl =
      { pl with index := (pl.index + k) % pl.songs.length } := by
  intro k
  induction k with
  | zero =>
    simp only [Function.iterate_zero, id_eq]
    have h : (pl.index + 0) % pl.songs.length = pl.index := by
      rw [Nat.add_zero, Nat.mod_eq_of_lt hi]
    rw [h]
  | succ k ih =>
    rw [Function.iterate_succ_apply', ih]
    unfold Playlist.next
    have h : ((pl.index + k) % pl.songs.length + 1) % pl.songs.length =
        (pl.index + (k + 1)) % pl.songs.length := by
      rw [Nat.mod_add_mod, Nat.add_assoc]
    simp only [h]

theorem prev_next (pl : Playlist) (hi : pl.index < pl.songs.length) :
    Playlist.prev (Playlist.next pl) = pl := by
  have hn : 0 < pl.songs.length := by omega
  have hidx : (Playlist.prev (Playlist.next pl)).index = pl.index := by
    show ((if (pl.index + 1) % pl.songs.length = 0 then pl.songs.length
        else (pl.index + 1) % pl.songs.length) - 1) % pl.songs.length = pl.index
    by_cases hc : pl.index + 1 = pl.songs.length
    · rw [hc, Nat.mod_self, if_pos rfl, Nat.mod_eq_of_lt (by omega)]
      omega
    · have hlt : pl.index + 1 < pl.songs.length := by omega
      rw [Nat.mod_eq_of_lt hlt, if_neg (by omega), Nat.add_sub_cancel,
        Nat.mod_eq_of_lt hi]
  have hs : (Playlist.prev (Playlist.next pl)).songs = pl.songs := rfl
  have ho : (Playlist.prev (Playlist.next pl)).shuffle_order = pl.shuffle_order := rfl
  cases pp : Playlist.prev (Playlist.next pl)
  rw [pp] at hidx hs ho
  cases pl
  simp only at hidx hs ho
  simp [hidx, hs, ho]

/-! ## The claims -/

/-- C5: on a non-empty playlist with a valid cursor, `next()` applied
`songs.size()` times is the identity (cyclic navigation), `prev()` undoes
`next()` from any position, and `prev()` at position 0 wraps to position
`N-1`. -/
theorem jpod_c5 (pl : Playlist) (h : 0 < pl.songs.length)
    (hi : pl.index < pl.songs.length) :
    Playlist.next^[pl.songs.length] pl = pl ∧
    Playlist.prev (Playlist.next pl) = pl ∧
    (pl.index = 0 → (Playlist.prev pl).index = pl.songs.length - 1) := by
  refine ⟨?_, prev_next pl hi, ?_⟩
  · rw [next_iterate pl hi pl.songs.length]
    have hmod : (pl.index + pl.songs.length) % pl.songs.length = pl.index := by
      rw [Nat.add_mod_right, Nat.mod_eq_of_lt hi]
    rw [hmod]
  · intro h0
    show ((if pl.index = 0 then pl.songs.length else pl.index) - 1) %
        pl.songs.length = pl.songs.length - 1
    rw [if_pos h0, Nat.mod_eq_of_lt (by omega)]

/-- Witness for C5 on a concrete three-track playlist. -/
def sampleSongs : List String := ["/music/a.mp3", "/music/b.mp3", "/music/c.mp3"]

def samplePlaylist : Playlist :=
  { songs := sampleSongs, shuffle_order := [0, 1, 2], index := 0 }

theorem jpod_c5_witness :
    Playlist.next^[samplePlaylist.songs.length] samplePlaylist = samplePlaylist ∧
    Playlist.prev (Playlist.next samplePlaylist) = samplePlaylist ∧
    (samplePlaylist.index = 0 →
      (Playlist.prev samplePlaylist).index = samplePlaylist.songs.length - 1) :=
  jpod_c5 samplePlaylist (by decide) (by decide)

/-- C9: with a valid cursor, `has_next()` is false exactly at the last
position and `has_prev()` exactly at the first (both are pure queries of the
cursor; neither changes any state). -/
theorem jpod_c9 (pl : Playlist) (hi : pl.index < pl.songs.length) :
    (pl.has_next = true ↔ pl.index ≠ pl.songs.length - 1) ∧
    (pl.has_prev = true ↔ pl.index ≠ 0) := by
  unfold Playlist.has_next Playlist.has_prev
  constructor
  · simp only [decide_eq_true_eq]
    omega
  · simp only [gt_iff_lt, decide_eq_true_eq]
    omega

theorem jpod_c9_witness :
    (samplePlaylist.has_next = true ↔
      samplePlaylist.index ≠ samplePlaylist.songs.length - 1) ∧
    (samplePlaylist.has_prev = true ↔ samplePlaylist.index ≠ 0) :=
  jpod_c9 samplePlaylist (by decide)

/-- C6: `set_volume` stores exactly `clamp(v, 0, 1)` and the stored volume is
always inside `[0, 1]`. -/
theorem jpod_c6 (s : PlayerState) (v : ℚ) :
    (set_volume s v).volume = max 0 (min v 1) ∧
      0 ≤ (set_volume s v).volume ∧ (set_volume s v).volume ≤ 1 := by
  have h := clampQ_max_min v
  exact ⟨h.1, h.2.1, h.2.2⟩

/-- C7: `adjust_volume(delta)` is literally `set_volume(get_volume() + delta)`,
i.e. the current volume plus the delta, clamped to `[0, 1]`. -/
theorem jpod_c7 (s : PlayerState) (d : ℚ) :
    adjust_volume s d = set_volume s (get_volume s + d) ∧
      (adjust_volume s d).volume = max 0 (min (get_volume s + d) 1) :=
  ⟨rfl, (clampQ_max_min (get_volume s + d)).1⟩

/-- Field projections of `resume`: the decoder position, queue and elapsed
accumulator are untouched; when not shutting down, `start_time_` becomes
`now` and the state becomes `PLAY`. -/
theorem resume_decodePos (s : PlayerState) (now : Int) :
    (resume s now).decodePosSamples = s.decodePosSamples := by
  unfold resume fade_done set_volume
  split
  · rfl
  · simp only [resume_audio_device_eq]

theorem resume_queued (s : PlayerState) (now : Int) :
    (resume s now).queuedAudio = s.queuedAudio := by
  unfold resume fade_done set_volume
  split
  · rfl
  · simp only [resume_audio_device_eq]

theorem resume_durationMs (s : PlayerState) (now : Int) :
    (resume s now).elapsedDurationMs = s.elapsedDurationMs := by
  unfold resume fade_done set_volume
  split
  · rfl
  · simp only [resume_audio_device_eq]

theorem resume_startTime_of (s : PlayerState) (now : Int)
    (h : s.pstate ≠ .switchOff) : (resume s now).startTime = now := by
  unfold resume fade_done set_volume
  rw [if_neg h]
  simp only [resume_audio_device_eq]

theorem resume_pstate_of (s : PlayerState) (now : Int)
    (h : s.pstate ≠ .switchOff) : (resume s now).pstate = .play := by
  unfold resume fade_done set_volume
  rw [if_neg h]

/-- C3: a successful `seek_relative(delta)` while playing clamps the target
into `[0, total_seconds]`, seeks the decoder to `target * rate` samples,
clears the queued output, sets the elapsed accumulator
(`elapsed_duration_`) to exactly the target, restarts `start_time_` to the
current instant, and leaves the player playing. -/
theorem jpod_c3 (s : PlayerState) (delta now : Int) (hplay : s.pstate = .play)
    (hdev : s.deviceOpen = true) (htot : 0 ≤ s.totalSeconds) :
    0 ≤ clampInt (s.elapsedSeconds + delta) 0 s.totalSeconds ∧
    clampInt (s.elapsedSeconds + delta) 0 s.totalSeconds ≤ s.totalSeconds ∧
    (seek_relative s delta now true).decodePosSamples =
      clampInt (s.elapsedSeconds + delta) 0 s.totalSeconds * s.sampleRate ∧
    (seek_relative s delta now true).queuedAudio = 0 ∧
    (seek_relative s delta now true).elapsedDurationMs =
      clampInt (s.elapsedSeconds + delta) 0 s.totalSeconds * 1000 ∧
    (seek_relative s delta now true).startTime = now ∧
    (seek_relative s delta now true).pstate = .play := by
  have hoff : s.pstate ≠ .switchOff := by rw [hplay]; intro hx; cases hx
  obtain ⟨hb1, hb2⟩ := clampInt_bounds (s.elapsedSeconds + delta) s.totalSeconds htot
  rw [seek_relative_accept_eq s delta now hoff hdev]
  refine ⟨hb1, hb2, ?_, ?_, ?_, ?_, ?_⟩
  · rw [resume_decodePos]
  · rw [resume_queued]
  · rw [resume_durationMs]
  · rw [resume_startTime_of]
    exact hoff
  · rw [resume_pstate_of]
    exact hoff

/-- A player mid-playback of a known 10-second track, used as witness input. -/
def playingState : PlayerState :=
  { initState with
    pstate := .play, decoderOpen := true, trackSamples := 10000,
    sampleRate := 1000, totalSeconds := 10, elapsedSeconds := 3 }

theorem jpod_c3_witness :
    0 ≤ clampInt (playingState.elapsedSeconds + 5) 0 playingState.totalSeconds ∧
    clampInt (playingState.elapsedSeconds + 5) 0 playingState.totalSeconds ≤
      playingState.totalSeconds ∧
    (seek_relative playingState 5 1234 true).decodePosSamples =
      clampInt (playingState.elapsedSeconds + 5) 0 playingState.totalSeconds *
        playingState.sampleRate ∧
    (seek_relative playingState 5 1234 true).queuedAudio = 0 ∧
    (seek_relative playingState 5 1234 true).elapsedDurationMs =
      clampInt (playingState.elapsedSeconds + 5) 0 playingState.totalSeconds * 1000 ∧
    (seek_relative playingState 5 1234 true).startTime = 1234 ∧
    (seek_relative playingState 5 1234 true).pstate = .play :=
  jpod_c3 playingState 5 1234 rfl rfl (by decide)

/-- C4: when the decoder rejects the seek target, `seek_relative` changes
nothing except printing one warning: the elapsed accumulator, `start_time_`,
the queued output and every other field are left as they were. -/
theorem jpod_c4 (s : PlayerState) (delta now : Int)
    (hoff : s.pstate ≠ .switchOff) (hdev : s.deviceOpen = true) :
    seek_relative s delta now false = { s with warnCount := s.warnCount + 1 } :=
  seek_relative_reject_eq s delta now hoff hdev

theorem jpod_c4_witness :
    seek_relative playingState (-4) 777 false =
      { playingState with warnCount := playingState.warnCount + 1 } :=
  jpod_c4 playingState (-4) 777 (by decide) rfl

/-- C10: when the stored total duration is 0 (unknown), the clamp interval
collapses to `[0, 0]`, so every relative seek - forward or backward - lands
on position 0: elapsed accumulator 0 and decoder position 0. -/
theorem jpod_c10 (s : PlayerState) (delta now : Int)
    (hoff : s.pstate ≠ .switchOff) (hdev : s.deviceOpen = true)
    (htot : s.totalSeconds = 0) :
    clampInt (s.elapsedSeconds + delta) 0 s.totalSeconds = 0 ∧
    (seek_relative s delta now true).elapsedDurationMs = 0 ∧
    (seek_relative s delta now true).decodePosSamples = 0 := by
  have hc : clampInt (s.elapsedSeconds + delta) 0 s.totalSeconds = 0 := by
    rw [htot]; unfold clampInt; split_ifs <;> omega
  rw [seek_relative_accept_eq s delta now hoff hdev]
  refine ⟨hc, ?_, ?_⟩
  · rw [resume_durationMs]
    show clampInt (s.elapsedSeconds + delta) 0 s.totalSeconds * 1000 = 0
    rw [hc]
    exact zero_mul 1000
  · rw [resume_decodePos]
    show clampInt (s.elapsedSeconds + delta) 0 s.totalSeconds * s.sampleRate = 0
    rw [hc]
    exact zero_mul s.sampleRate

/-- A playing track whose duration `mpg123_length` could not determine. -/
def unknownTrackState : PlayerState :=
  { initState with
    pstate := .play, decoderOpen := true, trackSamples := 5000,
    sampleRate := 1000, totalSeconds := 0, elapsedSeconds := 2 }

theorem jpod_c10_witness :
    clampInt (unknownTrackState.elapsedSeconds + 7) 0
      unknownTrackState.totalSeconds = 0 ∧
    (seek_relative unknownTrackState 7 99 true).elapsedDurationMs = 0 ∧
    (seek_relative unknownTrackState 7 99 true).decodePosSamples = 0 :=
  jpod_c10 unknownTrackState 7 99 (by decide) rfl rfl

/-- C8: `reshuffle()` resets the cursor to 0, produces a shuffle order that
is a permutation of the track indices `0 .. N-1` (no duplicates, no
omissions), and `current()` afterwards returns one of the (non-empty) song
paths. -/
theorem jpod_c8 (pl : Playlist) (d : Nat → Nat) (hn : 0 < pl.songs.length)
    (hne : ∀ x ∈ pl.songs, x ≠ "") :
    (pl.reshuffle d).index = 0 ∧
    (pl.reshuffle d).shuffle_order.Perm (List.range pl.songs.length) ∧
    Playlist.current (pl.reshuffle d) ≠ "" := by
  have hperm : (shuffleList (List.range pl.songs.length) d).Perm
      (List.range pl.songs.length) := shuffleList_perm _ d
  refine ⟨rfl, hperm, ?_⟩
  have hlen : (shuffleList (List.range pl.songs.length) d).length =
      pl.songs.length := by
    rw [hperm.length_eq, List.length_range]
  have h0 : 0 < (shuffleList (List.range pl.songs.length) d).length := by omega
  have hfirst : (shuffleList (List.range pl.songs.length) d).getD 0 0 ∈
      List.range pl.songs.length := by
    rw [getD_eq_of_lt _ _ _ h0]
    exact hperm.mem_iff.mp (List.getElem_mem h0)
  have hlt : (shuffleList (List.range pl.songs.length) d).getD 0 0 <
      pl.songs.length := List.mem_range.mp hfirst
  show pl.songs.getD
      ((shuffleList (List.range pl.songs.length) d).getD 0 0) "" ≠ ""
  rw [getD_eq_of_lt _ _ _ hlt]
  exact hne _ (List.getElem_mem hlt)

theorem jpod_c8_witness :
    (samplePlaylist.reshuffle (fun _ => 0)).index = 0 ∧
    (samplePlaylist.reshuffle (fun _ => 0)).shuffle_order.Perm
      (List.range samplePlaylist.songs.length) ∧
    Playlist.current (samplePlaylist.reshuffle (fun _ => 0)) ≠ "" :=
  jpod_c8 samplePlaylist (fun _ => 0) (by decide) (by decide)

theorem resume_playlist (s : PlayerState) (now : Int) :
    (resume s now).playlist = s.playlist := by
  unfold resume fade_done set_volume
  split
  · rfl
  · simp only [resume_audio_device_eq]

/-- C1 (amended): both components of the progress query are non-negative in
every reachable state.  (The original claim's second half - `elapsed ≤ total`
once a known-duration track is loaded - fails; see the counterexample.) -/
theorem jpod_c1 (t : Int) (s : PlayerState) (h : Reachable t s) :
    0 ≤ (get_progress s).1 ∧ 0 ≤ (get_progress s).2 := by
  have hi := reachable_inv h
  exact ⟨hi.1, hi.2.1⟩

theorem jpod_c1_witness :
    0 ≤ (get_progress initState).1 ∧ 0 ≤ (get_progress initState).2 :=
  jpod_c1 0 initState Reachable.init

/-- A 10-second track: 10000 samples at 1000 samples/s, duration known. -/
def cexInfo : TrackInfo :=
  { reportedSamples := some 10000, actualSamples := 10000, rate := 1000 }

/-- A source holding exactly the track `a.mp3`. -/
def cexSrc : SongSource := fun p => if p = "a.mp3" then some cexInfo else none

theorem cexSrc_wf : WfSource cexSrc := by
  intro p info h
  unfold cexSrc at h
  split at h
  · simp only [Option.some.injEq] at h
    subst h
    refine ⟨by decide, by decide, ?_⟩
    intro n hn
    simp only [cexInfo, Option.some.injEq] at hn
    omega
  · exact absurd h (by simp)

/-- The player right after `load_song("a.mp3")` from the initial state. -/
def cexLoaded : PlayerState :=
  { pstate := .stopped, volume := 1, lastVolume := 1, elapsedSeconds := 0,
    totalSeconds := 10, elapsedDurationMs := 0, startTime := 0,
    deviceOpen := true, devicePaused := true, queuedAudio := 0,
    decoderOpen := true, decodePosSamples := 0, trackSamples := 10000,
    sampleRate := 1000, playlist := none, warnCount := 0 }

theorem cex_load : load_song cexSrc initState "a.mp3" = Except.ok cexLoaded := by
  rfl

/-- C1 counterexample: the elapsed accumulator is not clamped against the
total.  `pause()` adds `now - start_time_` to `elapsed_duration_`
unconditionally, so two consecutive `pause()` calls (explicitly permitted -
pause is documented idempotent) double-count the elapsed wall-clock time.
Trace: load a 10 s track, `resume` at t=0, `pause` twice at t=6 s
(accumulating 6 s twice), `resume`, then one streaming read at t=6.001 s
publishes `elapsed_seconds_ = 12 > 10 = total_seconds_`. -/
theorem jpod_c1_counterexample :
    ∃ s : PlayerState, Reachable 6001 s ∧ s.totalSeconds = 10 ∧
      (get_progress s).2 ≠ 0 ∧ ¬ (get_progress s).1 ≤ (get_progress s).2 := by
  refine ⟨stream_step (resume (pause (pause (resume cexLoaded 0) 6000) 6000) 6000)
      6001 100, ?_, ?_, ?_, ?_⟩
  · have h0 : Reachable 0 initState := Reachable.init
    have h1 : Reachable 0 cexLoaded :=
      Reachable.doLoad cexSrc "a.mp3" cexSrc_wf h0 cex_load
    have h2 : Reachable 0 (resume cexLoaded 0) := Reachable.doResume h1
    have h3 : Reachable 6000 (resume cexLoaded 0) :=
      Reachable.elapse 6000 h2 (by norm_num)
    have h4 := Reachable.doPause h3
    have h5 := Reachable.doPause h4
    have h6 := Reachable.doResume h5
    have h7 := Reachable.elapse 6001 h6 (by norm_num)
    exact Reachable.doStreamRead 100 h7 (by decide) (by decide) (by norm_num)
  · decide
  · decide
  · decide

/-! ## The streaming loop and load failures (C2) -/

theorem load_song_ok_fields (src : SongSource) (A : PlayerState) (path : String)
    (info : TrackInfo) (h : src path = some info) :
    ∃ x, load_song src A path = .ok x ∧ x.pstate = .stopped ∧
      x.playlist = A.playlist := by
  unfold load_song
  rw [h]
  refine ⟨_, rfl, ?_, ?_⟩
  · simp only [pause_audio_device_eq]
  · simp only [pause_audio_device_eq]

theorem next_song_ok_of (src : SongSource) (A : PlayerState) (now : Int)
    (pl : Playlist) (info : TrackInfo) (hpl : A.playlist = some pl)
    (hinfo : src (Playlist.current (Playlist.next pl)) = some info) :
    ∃ s2, next_song src A now = .ok s2 ∧ s2.pstate = .play ∧
      s2.playlist = some (Playlist.next pl) := by
  unfold next_song
  rw [hpl]
  obtain ⟨x, hx, hxp, hxpl⟩ := load_song_ok_fields src
    (with_playlist (pause A now) (some (Playlist.next pl)))
    (Playlist.current (Playlist.next pl)) info hinfo
  show ∃ s2,
    (match load_song src (with_playlist (pause A now) (some (Playlist.next pl)))
        (Playlist.current (Playlist.next pl)) with
      | Except.error e => Except.error e
      | Except.ok x => Except.ok (resume x now)) = Except.ok s2 ∧
    s2.pstate = PState.play ∧ s2.playlist = some (Playlist.next pl)
  rw [hx]
  refine ⟨resume x now, rfl, ?_, ?_⟩
  · exact resume_pstate_of x now (by rw [hxp]; intro hc; cases hc)
  · rw [resume_playlist, hxpl]
    rfl

theorem next_song_error_of (src : SongSource) (A : PlayerState) (now : Int)
    (pl : Playlist) (hpl : A.playlist = some pl)
    (hnone : src (Playlist.current (Playlist.next pl)) = none) :
    next_song src A now =
      .error ("Failed to open " ++ Playlist.current (Playlist.next pl)) := by
  unfold next_song
  rw [hpl]
  have hl : load_song src (with_playlist (pause A now) (some (Playlist.next pl)))
      (Playlist.current (Playlist.next pl)) =
      .error ("Failed to open " ++ Playlist.current (Playlist.next pl)) := by
    unfold load_song
    rw [hnone]
  show (match load_song src (with_playlist (pause A now) (some (Playlist.next pl)))
      (Playlist.current (Playlist.next pl)) with
    | Except.error e => Except.error e
    | Except.ok x => Except.ok (resume x now)) =
    Except.error ("Failed to open " ++ Playlist.current (Playlist.next pl))
  rw [hl]

/-- C2 (amended): when the streaming loop is in `PLAY` and the decoder read
does not succeed (end of stream or decode error alike), the iteration treats
it as end-of-track: the decoder is closed and, without a playlist, the player
transitions to `Stopped`; with a playlist whose next track loads, playback
continues on the next track.  But when the next track fails to load during
this automatic advancement, the exception escapes the loop body
(`player_iteration` yields `.error`): nothing in `player_thread` catches it,
so it would terminate the background thread (and, with `std::jthread`, the
process). -/
theorem jpod_c2 (src : SongSource) (s : PlayerState) (sched : List (Int × Int))
    (now : Int) (hplay : s.pstate = .play) (hread : readOk s = false) :
    (s.playlist = none →
      player_iteration src s sched now =
        .ok (set_pstate (close_decoder (drain_buffer (resume_audio_device s)))
          .stopped)) ∧
    (∀ pl, s.playlist = some pl →
      (∀ info, src (Playlist.current (Playlist.next pl)) = some info →
        ∃ s2, player_iteration src s sched now = .ok s2 ∧
          s2.pstate = .play ∧ s2.playlist = some (Playlist.next pl)) ∧
      (src (Playlist.current (Playlist.next pl)) = none →
        player_iteration src s sched now =
          .error ("Failed to open " ++ Playlist.current (Playlist.next pl)))) := by
  have hread1 : readOk (resume_audio_device s) = false := by
    rw [readOk_resume_audio_device]
    exact hread
  have hso : stream_audio (resume_audio_device s) sched = resume_audio_device s :=
    stream_audio_no_read _ _ hread1
  have hiter : player_iteration src s sched now =
      end_of_track src (drain_buffer (resume_audio_device s)) now := by
    unfold player_iteration
    rw [if_neg (by simp [hplay]), hso]
  have hDp : (drain_buffer (resume_audio_device s)).pstate = .play := by
    simp only [drain_buffer_eq, resume_audio_device_eq]
    exact hplay
  have hDpl : (drain_buffer (resume_audio_device s)).playlist = s.playlist := by
    simp only [drain_buffer_eq, resume_audio_device_eq]
  constructor
  · intro hpl
    have hplD : (drain_buffer (resume_audio_device s)).playlist = none := by
      rw [hDpl, hpl]
    rw [hiter]
    unfold end_of_track
    rw [if_pos hDp, hplD]
  · intro pl hpl
    have hplD : (drain_buffer (resume_audio_device s)).playlist = some pl := by
      rw [hDpl, hpl]
    constructor
    · intro info hinfo
      obtain ⟨s2, hs2, hs2p, hs2pl⟩ := next_song_ok_of src
        (close_decoder (drain_buffer (resume_audio_device s)))
        now pl info hplD hinfo
      refine ⟨s2, ?_, hs2p, hs2pl⟩
      rw [hiter]
      unfold end_of_track
      rw [if_pos hDp, hplD]
      exact hs2
    · intro hnone
      rw [hiter]
      unfold end_of_track
      rw [if_pos hDp, hplD]
      exact next_song_error_of src
        (close_decoder (drain_buffer (resume_audio_device s)))
        now pl hplD hnone

/-- A two-track playlist whose second file has disappeared. -/
def cexPlaylist : Playlist :=
  { songs := ["a.mp3", "b.mp3"], shuffle_order := [0, 1], index := 0 }

/-- The player at the instant the first track's decode is exhausted: still
`PLAY`, decoder open, decode position at the end of the stream. -/
def cexEnded : PlayerState :=
  { initState with
    pstate := .play, decoderOpen := true, trackSamples := 10000,
    decodePosSamples := 10000, sampleRate := 1000, totalSeconds := 10,
    playlist := some cexPlaylist }

/-- C2 counterexample: one pass of the streaming loop at end-of-track, on a
playlist whose next file no longer opens, propagates the load error out of
the loop body (the claim says no error ever propagates out of the loop's own
execution). -/
theorem jpod_c2_counterexample :
    cexEnded.pstate = .play ∧ cexEnded.playlist = some cexPlaylist ∧
    player_iteration cexSrc cexEnded [] 0 = .error "Failed to open b.mp3" := by
  refine ⟨rfl, rfl, ?_⟩
  rfl

theorem jpod_c2_witness :
    player_iteration cexSrc cexEnded [] 0 =
      .error ("Failed to open " ++ Playlist.current (Playlist.next cexPlaylist)) :=
  ((jpod_c2 cexSrc cexEnded [] 0 rfl (by decide)).2 cexPlaylist rfl).2 (by decide)

/-! ## Playlist construction (`Playlist::Playlist` / `load_songs`)

The constructor scans a directory, keeps the regular files whose
`std::filesystem` extension is `.mp3`, records `shuffle_order_` as
`0, 1, ..., N-1` (one entry pushed per song), sorts the paths
lexicographically, and throws when nothing was found.  A directory is
modelled as a list of `(path, is_regular_file)` entries. -/

/-- The `filename()` component: the characters after the last slash. -/
def filenameChars (p : String) : List Char :=
  (p.data.reverse.takeWhile (fun c => c ≠ '/')).reverse

/-- The `extension()` of a filename per `std::filesystem::path`: empty for
`.`, `..`, dot-less names and a sole leading dot; otherwise the suffix from
the last dot. -/
def extensionChars (name : List Char) : List Char :=
  if name = ['.'] ∨ name = ['.', '.'] then []
  else
    let revAfter := name.reverse.takeWhile (fun c => c ≠ '.')
    if revAfter.length = name.length then []
    else if revAfter.length + 1 = name.length then []
    else '.' :: revAfter.reverse

/-- The test `path.extension() == ".mp3"`. -/
def isMp3 (p : String) : Bool :=
  extensionChars (filenameChars p) = ".mp3".data

/-- The `Playlist` constructor over a directory listing; throwing
`"No MP3 files found..."` is modelled as `.error`. -/
def mp3Songs (entries : List (String × Bool)) : List String :=
  ((entries.filter (fun e => e.2 && isMp3 e.1)).map Prod.fst).mergeSort
    (fun a b => a ≤ b)

def mkPlaylist (entries : List (String × Bool)) : Except String Playlist :=
  if (mp3Songs entries).isEmpty then .error "No MP3 files found in folder"
  else .ok { songs := mp3Songs entries,
             shuffle_order := List.range (mp3Songs entries).length, index := 0 }

/-- Every constructed playlist is non-empty and holds only non-empty paths
(they all carry a `.mp3` extension), which grounds the hypotheses of the
reshuffle and navigation theorems. -/
theorem mkPlaylist_songs_nonempty (entries : List (String × Bool))
    (pl : Playlist) (h : mkPlaylist entries = .ok pl) :
    0 < pl.songs.length ∧ ∀ x ∈ pl.songs, x ≠ "" := by
  unfold mkPlaylist at h
  split at h
  · exact absurd h (by simp)
  · simp only [Except.ok.injEq] at h
    subst h
    rename_i hne
    constructor
    · refine List.length_pos.mpr ?_
      intro hnil
      have hnil2 : mp3Songs entries = [] := hnil
      exact hne (by rw [hnil2]; rfl)
    · intro x hx
      have hx2 : x ∈ (entries.filter (fun e => e.2 && isMp3 e.1)).map Prod.fst :=
        (List.mergeSort_perm _ _).mem_iff.mp hx
      obtain ⟨e, he, hfst⟩ := List.mem_map.mp hx2
      have hf : (e.2 && isMp3 e.1) = true := (List.mem_filter.mp he).2
      intro hempty
      rw [hfst, hempty] at hf
      have hmp : isMp3 "" = false := by decide
      simp [hmp] at hf
